import Mathlib

/-!
Verification development for `oneview-rs` (`src/main.rs`), a viewer for ONE-format
(`.1aln`) pairwise-alignment files.

The record stream produced by the external `onecode` reader is modelled as a
`List Rec`: `read_line` pops the head record and returns its type tag
(`'\0'`, i.e. `Char.ofNat 0`, signals end of stream, modelled as the empty
list or a record whose tag is `Char.ofNat 0`); `file.int i` reads integer
field `i` of the record just read; `file.int_list()` returns the record's
integer-list payload.  Machine integers (`i64`) are modelled as unbounded
`Int` with explicit bound checks where the Rust code checks overflow
(`checked_add`).  Fallible Rust functions returning `Result` are modelled as
`Except String`.
-/

/-- End-of-stream / NUL tag character (Rust `'\0'`). -/
def nulTag : Char := Char.ofNat 0

/-- Apostrophe character (ASCII 39), as it appears in the second arm of the
strand match of the reverse-flip condition in `parse_alignment`. -/
def aposChar : Char := Char.ofNat 39

/-- One typed record of the ONE stream: a type tag, the integer fields
accessible via `file.int(i)`, and an optional integer-list payload
accessible via `file.int_list()`. -/
structure Rec where
  tag : Char
  ints : List Int
  intList : Option (List Int)
deriving Repr, DecidableEq

/-- Model of `file.int(i)` on the record just read (field access; out-of-range reads
are not exercised by the program and default to 0 in the model). -/
def field (r : Rec) (i : Nat) : Int := r.ints.getD i 0

/-- Smallest `i64` value. -/
def i64Min : Int := -(2 ^ 63)

/-- Largest `i64` value. -/
def i64Max : Int := 2 ^ 63 - 1

/-- Structure `FileMetadata` (src/main.rs lines 90-100): the six catalogs, each a
`HashMap<i64, _>` in the source, modelled as partial functions. -/
structure FileMetadata where
  query_seq_names : Int → Option String
  query_seq_lengths : Int → Option Int
  query_contig_offsets : Int → Option (Int × Int)
  target_seq_names : Int → Option String
  target_seq_lengths : Int → Option Int
  target_contig_offsets : Int → Option (Int × Int)

/-- Structure `AlignmentData` (src/main.rs lines 27-41). -/
structure AlignmentData where
  query_name : String
  query_length : Int
  query_start : Int
  query_end : Int
  target_name : String
  target_length : Int
  target_start : Int
  target_end : Int
  strand : Char
  differences : Int
  tracepoints : List Int
  trace_diffs : List Int
deriving Repr, DecidableEq

/-- Function `add_offset` (src/main.rs lines 539-543): `offset.checked_add(position)`
returns `None` exactly when the mathematical sum leaves the `i64` range, in
which case the function reports a coordinate-overflow error. -/
def add_offset (offset position : Int) : Except String Int :=
  if offset + position < i64Min ∨ i64Max < offset + position then
    .error "Coordinate overflow when applying contig offset"
  else
    .ok (offset + position)

/-- The record tags on which the attribute loop of `parse_alignment`
(src/main.rs line 518) breaks: `'A' | 'a' | 'g' | 'S' | '^' | '\0'`. -/
def is_boundary_tag (c : Char) : Bool :=
  c = 'A' || c = 'a' || c = 'g' || c = 'S' || c = '^' || c = nulTag

/-- The freshly opened alignment unit of `parse_alignment`
(src/main.rs lines 497-508): the struct literal with `strand: '+'` and
`..Default::default()` (so `differences = 0` and empty trace lists; the
four global coordinates start at 0 and are assigned later). -/
def initUnit (query_name : String) (query_length : Int)
    (target_name : String) (target_length : Int) : AlignmentData :=
  { query_name := query_name
    query_length := query_length
    query_start := 0
    query_end := 0
    target_name := target_name
    target_length := target_length
    target_start := 0
    target_end := 0
    strand := '+'
    differences := 0
    tracepoints := []
    trace_diffs := [] }

/-- The attribute-record loop of `parse_alignment` (src/main.rs lines
511-521): reads records, updating the unit on `'R'`/`'D'`/`'T'`/`'X'`,
silently skipping unknown tags, and breaking on a boundary tag.  Returns the
updated unit together with the remaining stream; the boundary record (the
`next_line` of the source) is left at the head of the remaining stream, so
that the caller sees it as the current line. -/
def readAttrs (aln : AlignmentData) : List Rec → AlignmentData × List Rec
  | [] => (aln, [])
  | r :: rs =>
    if is_boundary_tag r.tag then (aln, r :: rs)
    else
      match r.tag with
      | 'R' => readAttrs { aln with strand := '-' } rs
      | 'D' => readAttrs { aln with differences := field r 0 } rs
      | 'T' => readAttrs { aln with tracepoints := r.intList.getD [] } rs
      | 'X' => readAttrs { aln with trace_diffs := r.intList.getD [] } rs
      | _ => readAttrs aln rs

/-- Function `parse_alignment` (src/main.rs lines 431-537).  `arec` is the current
`'A'` line whose integer fields have just been read; `rest` is the stream
after it.  The six metadata lookups (`ok_or_else` chains) come first; then
the attribute loop; then the reverse-strand target flip (lines 523-529);
then the four checked offset additions.  Returns the finished unit and the
remaining stream (whose head is the boundary record on which the loop
broke). -/
def parse_alignment (md : FileMetadata) (arec : Rec) (rest : List Rec) :
    Except String (AlignmentData × List Rec) :=
  let query_id := field arec 0
  let target_id := field arec 3
  match md.query_seq_names query_id with
  | none => .error ("Query sequence with ID " ++ toString query_id ++ " not found in metadata")
  | some query_name =>
  match md.target_seq_names target_id with
  | none => .error ("Target sequence with ID " ++ toString target_id ++ " not found in metadata")
  | some target_name =>
  match md.query_seq_lengths query_id with
  | none => .error ("Query sequence length for ID " ++ toString query_id ++ " not found in metadata")
  | some query_length =>
  match md.target_seq_lengths target_id with
  | none => .error ("Target sequence length for ID " ++ toString target_id ++ " not found in metadata")
  | some target_length =>
  match md.query_contig_offsets query_id with
  | none => .error ("Contig offset for query sequence ID " ++ toString query_id ++ " not found in metadata")
  | some (query_offset, _) =>
  match md.target_contig_offsets target_id with
  | none => .error ("Contig offset for target sequence ID " ++ toString target_id ++ " not found in metadata")
  | some (target_offset, target_contig_len) =>
  let query_contig_start := field arec 1
  let query_contig_end := field arec 2
  let target_contig_start := field arec 4
  let target_contig_end := field arec 5
  let parsed := readAttrs (initUnit query_name query_length target_name target_length) rest
  let aln := parsed.1
  let next := parsed.2
  let flipped :=
    if aln.strand = '-' ∨ aln.strand = aposChar then
      (target_contig_len - target_contig_end, target_contig_len - target_contig_start)
    else
      (target_contig_start, target_contig_end)
  match add_offset query_offset query_contig_start with
  | .error e => .error e
  | .ok qs =>
  match add_offset query_offset query_contig_end with
  | .error e => .error e
  | .ok qe =>
  match add_offset target_offset flipped.1 with
  | .error e => .error e
  | .ok ts =>
  match add_offset target_offset flipped.2 with
  | .error e => .error e
  | .ok te =>
  .ok ({ aln with query_start := qs, query_end := qe, target_start := ts, target_end := te }, next)

/-- The attribute loop only consumes records, so the remaining stream is no
longer than the input stream. -/
theorem readAttrs_length_le (aln : AlignmentData) (l : List Rec) :
    (readAttrs aln l).2.length ≤ l.length := by
  induction l generalizing aln with
  | nil => simp [readAttrs]
  | cons r rs ih =>
    rw [readAttrs]
    by_cases hb : is_boundary_tag r.tag
    · simp [hb]
    · simp only [hb, if_false, Bool.false_eq_true]
      split <;> exact le_trans (ih _) (Nat.le_succ _)

/-- A successful `parse_alignment` leaves a remaining stream no longer than
the stream it was given (used for termination of `read_all_alignments`). -/
theorem parse_alignment_length_le (md : FileMetadata) (arec : Rec) (rest : List Rec)
    (aln : AlignmentData) (next : List Rec)
    (h : parse_alignment md arec rest = .ok (aln, next)) :
    next.length ≤ rest.length := by
  unfold parse_alignment at h
  dsimp only at h
  repeat' split at h
  all_goals simp at h
  obtain ⟨-, hn⟩ := h
  rw [← hn]
  exact readAttrs_length_le _ _

/-- Function `read_all_alignments` (src/main.rs lines 406-429), with printing
abstracted away: scans the stream, calling `parse_alignment` at every `'A'`
line and collecting the finished units in encounter order; any other record
type at top level is skipped.  The first `parse_alignment` error aborts the
scan (the `?` operator in the source). -/
def read_all_alignments (md : FileMetadata) : List Rec → Except String (List AlignmentData)
  | [] => .ok []
  | r :: rs =>
    if r.tag = 'A' then
      match h : parse_alignment md r rs with
      | .error e => .error e
      | .ok (aln, next) =>
        match read_all_alignments md next with
        | .error e => .error e
        | .ok units => .ok (aln :: units)
    else
      read_all_alignments md rs
termination_by l => l.length
decreasing_by
  · simp only [List.length_cons]
    exact Nat.lt_succ_of_le (parse_alignment_length_le md r rs aln next h)
  · simp only [List.length_cons]
    exact Nat.lt_succ_self _

/-- The trace-spacing scan of `get_file_metadata` (src/main.rs lines
299-307): `trace_spacing` defaults to 100; the loop breaks with the integer
field of the first `'t'` record, or with the default when an `'A'` record or
end of stream (`'\0'`) comes first; every other record type is skipped. -/
def get_trace_spacing : List Rec → Int
  | [] => 100
  | r :: rs =>
    if r.tag = 't' then field r 0
    else if r.tag = 'A' ∨ r.tag = nulTag then 100
    else get_trace_spacing rs

/-- Enum `OutputFormat` (src/main.rs lines 374-378). -/
inductive OutputFormat where
  | Human
  | Paf
deriving Repr, DecidableEq

/-- The fields of the one tab-delimited PAF line written by
`print_alignment_paf` (src/main.rs lines 571-619), with string rendering
abstracted away: the twelve standard columns, the `df:i:` tag value, and the
`tp:Z:` tag pairs (`(diff, tracepoint)` in the order they are joined). -/
structure PafLine where
  query_name : String
  query_length : Int
  query_start : Int
  query_end : Int
  strand : Char
  target_name : String
  target_length : Int
  target_start : Int
  target_end : Int
  «matches» : Int
  block_length : Int
  mapq : Int
  df_tag : Int
  tp_pairs : List (Int × Int)
deriving Repr, DecidableEq

/-- Function `print_alignment_paf` (src/main.rs lines 571-619) as a pure computation
of the emitted PAF fields.  `Int.tdiv` is Rust `i64` division (truncation
toward zero); `max _ 0` is Rust `.max(0)`.  The `tp:Z:` pairs zip
`trace_diffs` with `tracepoints`, truncated to the shorter list, and are
emitted only when both lists are non-empty. -/
def print_alignment_paf (aln : AlignmentData) : PafLine :=
  let query_span := max (aln.query_end - aln.query_start) 0
  let target_span := max (aln.target_end - aln.target_start) 0
  let block_length := query_span + target_span
  let «matches» := max (Int.tdiv (block_length - aln.differences) 2) 0
  let mapq := 255
  let tp_pairs :=
    if aln.trace_diffs ≠ [] ∧ aln.tracepoints ≠ [] then
      aln.trace_diffs.zip aln.tracepoints
    else []
  { query_name := aln.query_name
    query_length := aln.query_length
    query_start := aln.query_start
    query_end := aln.query_end
    strand := aln.strand
    target_name := aln.target_name
    target_length := aln.target_length
    target_start := aln.target_start
    target_end := aln.target_end
    «matches» := «matches»
    block_length := block_length
    mapq := mapq
    df_tag := aln.differences
    tp_pairs := tp_pairs }

/-- The error message of `read_single_alignment` (src/main.rs lines
391-395) when the native binary-index jump is unavailable. -/
def no_index_msg (idx : Nat) : String :=
  "Cannot access alignment " ++ toString idx ++
    " directly. Binary index not available for this file.\n" ++
    "Please ensure the file has an associated .1idx index file."

/-- Function `read_single_alignment` (src/main.rs lines 380-404).  The external
`file.goto('A', idx + 1)` call is modelled by the oracle argument `goto`:
`none` when the jump fails (no binary index), `some (arec, rest)` when it
succeeds, positioning the stream at the `(idx+1)`-th `'A'` record `arec`
with `rest` following it.  On failure the function returns the error above;
there is no other branch — in particular no derived-index or sidecar-file
fallback exists in the source. -/
def read_single_alignment (goto : Option (Rec × List Rec)) (idx : Nat)
    (md : FileMetadata) : Except String AlignmentData :=
  match goto with
  | none => .error (no_index_msg idx)
  | some (arec, rest) =>
    match parse_alignment md arec rest with
    | .error e => .error e
    | .ok (aln, _) => .ok aln

/-- What `main` writes to standard output, by dispatch arm
(src/main.rs lines 58-86): the metadata summary, one alignment, or the
metadata header plus all alignments. -/
inductive MainOutput where
  | metadataOnly (trace_spacing : Int)
  | single (format : OutputFormat) (aln : AlignmentData)
  | all (format : OutputFormat) (units : List AlignmentData)
deriving Repr

/-- Function `main` (src/main.rs lines 43-88), with argument parsing and I/O at the
boundary: the `--metadata`/`--paf` conflict check comes first (lines 46-48,
before any metadata is read or any output produced), then the output format
is chosen, the file metadata and trace spacing are read, and the three-way
dispatch on `(metadata, alignment)` runs. -/
def oneview_main (args_metadata args_paf : Bool) (args_alignment : Option Nat)
    (md : FileMetadata) (recs : List Rec) (goto : Nat → Option (Rec × List Rec)) :
    Except String MainOutput :=
  if args_metadata = true ∧ args_paf = true then
    .error "Cannot combine --metadata with --paf output"
  else
    let format := if args_paf then OutputFormat.Paf else OutputFormat.Human
    let trace_spacing := get_trace_spacing recs
    match args_metadata, args_alignment with
    | true, _ => .ok (.metadataOnly trace_spacing)
    | false, some idx =>
      match read_single_alignment (goto idx) idx md with
      | .error e => .error e
      | .ok aln => .ok (.single format aln)
    | false, none =>
      match read_all_alignments md recs with
      | .error e => .error e
      | .ok units => .ok (.all format units)

instance {ε α : Type} [DecidableEq ε] [DecidableEq α] : DecidableEq (Except ε α) := fun a b =>
  match a, b with
  | .ok x, .ok y => if h : x = y then .isTrue (by rw [h]) else .isFalse (by simp [h])
  | .error x, .error y => if h : x = y then .isTrue (by rw [h]) else .isFalse (by simp [h])
  | .ok _, .error _ => .isFalse (by simp)
  | .error _, .ok _ => .isFalse (by simp)

/-! ## Helper lemmas about the attribute loop -/

/-- The attribute loop never invents strand values: the strand of the result
is either the strand it started with or `'-'` (set by an `'R'` record). -/
theorem readAttrs_strand (aln : AlignmentData) (l : List Rec) :
    (readAttrs aln l).1.strand = aln.strand ∨ (readAttrs aln l).1.strand = '-' := by
  induction l generalizing aln with
  | nil => simp [readAttrs]
  | cons r rs ih =>
    rw [readAttrs]
    by_cases hb : is_boundary_tag r.tag
    · simp [hb]
    · simp only [hb, Bool.false_eq_true, if_false]
      split
      · rcases ih { aln with strand := '-' } with h | h <;> simp_all
      · exact ih _
      · exact ih _
      · exact ih _
      · exact ih _

/-- The attribute loop never changes the sequence names of the unit. -/
theorem readAttrs_names (aln : AlignmentData) (l : List Rec) :
    (readAttrs aln l).1.query_name = aln.query_name ∧
      (readAttrs aln l).1.target_name = aln.target_name := by
  induction l generalizing aln with
  | nil => simp [readAttrs]
  | cons r rs ih =>
    rw [readAttrs]
    by_cases hb : is_boundary_tag r.tag
    · simp [hb]
    · simp only [hb, Bool.false_eq_true, if_false]
      split
      · simpa using ih { aln with strand := '-' }
      · simpa using ih { aln with differences := field r 0 }
      · simpa using ih { aln with tracepoints := r.intList.getD [] }
      · simpa using ih { aln with trace_diffs := r.intList.getD [] }
      · exact ih _

/-- The primary (`'A'`) records of the stream, in encounter order. -/
def primary_records (recs : List Rec) : List Rec :=
  recs.filter (fun r => r.tag = 'A')

/-- The attribute loop consumes no primary record: it breaks as soon as an
`'A'` (boundary) record is seen, so the remaining stream carries exactly the
primary records of the input stream. -/
theorem readAttrs_primary (aln : AlignmentData) (l : List Rec) :
    primary_records (readAttrs aln l).2 = primary_records l := by
  induction l generalizing aln with
  | nil => simp [readAttrs]
  | cons r rs ih =>
    rw [readAttrs]
    by_cases hb : is_boundary_tag r.tag
    · simp [hb]
    · have hA : ¬(r.tag = 'A') := by
        intro hcontra
        simp [is_boundary_tag, hcontra] at hb
      simp only [hb, Bool.false_eq_true, if_false]
      have hfilter : primary_records (r :: rs) = primary_records rs := by
        simp [primary_records, hA]
      rw [hfilter]
      split
      · exact ih _
      · exact ih _
      · exact ih _
      · exact ih _
      · exact ih _

/-- Inversion for a successful `add_offset`: the sum is within `i64` bounds
and the returned coordinate is the exact mathematical sum. -/
theorem add_offset_ok (o p s : Int) (h : add_offset o p = .ok s) :
    i64Min ≤ o + p ∧ o + p ≤ i64Max ∧ s = o + p := by
  unfold add_offset at h
  split at h
  · simp at h
  · rename_i hc
    push_neg at hc
    simp only [Except.ok.injEq] at h
    exact ⟨hc.1, hc.2, h.symm⟩

/-! ## C1 -/

/-- C1 counterexample: concrete run in which the direct positional jump to
alignment 0 is unsupported (`goto` fails).  The program returns the
"Binary index not available" error — it does not fall back to a sidecar
index, scan the stream, or return the alignment. -/
theorem C1_counterexample_no_fallback :
    read_single_alignment none 0
      ⟨fun _ => some "q", fun _ => some 10, fun _ => some (0, 10),
       fun _ => some "t", fun _ => some 10, fun _ => some (0, 10)⟩ =
      .error (no_index_msg 0) := rfl

/-- C1 (amended): whenever the direct positional jump is unsupported,
`read_single_alignment` returns the "Binary index not available" error
asking for an associated `.1idx` file; no derived sidecar index is loaded,
built, or persisted, and no alignment is returned. -/
theorem C1_no_index_is_error (idx : Nat) (md : FileMetadata) :
    read_single_alignment none idx md = .error (no_index_msg idx) := rfl

/-! ## C3 -/

/-- C3: in PAF output, `block_length` is the query span plus the target span
with each span floored at 0, and `matches` is
`max(0, (block_length - differences) / 2)` under `i64` (truncating) integer
division; in particular `matches` is never negative. -/
theorem C3_paf_matches_block_length (aln : AlignmentData) :
    (print_alignment_paf aln).block_length =
        max 0 (aln.query_end - aln.query_start) + max 0 (aln.target_end - aln.target_start) ∧
      (print_alignment_paf aln).«matches» =
        max 0 (Int.tdiv ((print_alignment_paf aln).block_length - aln.differences) 2) ∧
      0 ≤ (print_alignment_paf aln).«matches» := by
  refine ⟨?_, ?_, ?_⟩
  · simp [print_alignment_paf, max_comm]
  · simp [print_alignment_paf, max_comm]
  · simp [print_alignment_paf]

/-! ## C9 -/

/-- C9: whenever both the `--metadata` and `--paf` flags are given, `main`
fails immediately with the descriptive mutual-exclusion error; no output is
produced on the data stream (the error branch is taken before any dispatch
arm runs). -/
theorem C9_metadata_paf_conflict (args_metadata args_paf : Bool)
    (args_alignment : Option Nat) (md : FileMetadata) (recs : List Rec)
    (goto : Nat → Option (Rec × List Rec))
    (hm : args_metadata = true) (hp : args_paf = true) :
    oneview_main args_metadata args_paf args_alignment md recs goto =
      .error "Cannot combine --metadata with --paf output" := by
  subst hm hp
  simp [oneview_main]

/-- Witness for C9 at a concrete invocation. -/
theorem C9_metadata_paf_conflict_witness :
    oneview_main true true none
        ⟨fun _ => none, fun _ => none, fun _ => none, fun _ => none, fun _ => none, fun _ => none⟩
        [] (fun _ => none) =
      .error "Cannot combine --metadata with --paf output" :=
  C9_metadata_paf_conflict true true none
    ⟨fun _ => none, fun _ => none, fun _ => none, fun _ => none, fun _ => none, fun _ => none⟩
    [] (fun _ => none) rfl rfl

/-- Full inversion of a successful `parse_alignment`: all six metadata
lookups succeeded, the remaining stream and the attribute fields come from
the attribute loop, and the four global coordinates are the exact
(in-`i64`-range) offset sums, with the target pair flipped about the contig
length exactly when the final strand is `'-'` (or the dead apostrophe arm). -/
theorem parse_alignment_ok_inv (md : FileMetadata) (arec : Rec) (rest : List Rec)
    (aln : AlignmentData) (next : List Rec)
    (h : parse_alignment md arec rest = .ok (aln, next)) :
    ∃ qn tn ql tl qoff qlen2 toff clen,
      md.query_seq_names (field arec 0) = some qn ∧
      md.target_seq_names (field arec 3) = some tn ∧
      md.query_seq_lengths (field arec 0) = some ql ∧
      md.target_seq_lengths (field arec 3) = some tl ∧
      md.query_contig_offsets (field arec 0) = some (qoff, qlen2) ∧
      md.target_contig_offsets (field arec 3) = some (toff, clen) ∧
      next = (readAttrs (initUnit qn ql tn tl) rest).2 ∧
      aln.query_name = qn ∧
      aln.target_name = tn ∧
      aln.strand = (readAttrs (initUnit qn ql tn tl) rest).1.strand ∧
      aln.differences = (readAttrs (initUnit qn ql tn tl) rest).1.differences ∧
      aln.tracepoints = (readAttrs (initUnit qn ql tn tl) rest).1.tracepoints ∧
      aln.trace_diffs = (readAttrs (initUnit qn ql tn tl) rest).1.trace_diffs ∧
      aln.query_start = qoff + field arec 1 ∧
      aln.query_end = qoff + field arec 2 ∧
      ((aln.strand = '-' ∨ aln.strand = aposChar) →
        aln.target_start = toff + (clen - field arec 5) ∧
        aln.target_end = toff + (clen - field arec 4)) ∧
      (¬(aln.strand = '-' ∨ aln.strand = aposChar) →
        aln.target_start = toff + field arec 4 ∧
        aln.target_end = toff + field arec 5) ∧
      i64Min ≤ aln.query_start ∧ aln.query_start ≤ i64Max ∧
      i64Min ≤ aln.query_end ∧ aln.query_end ≤ i64Max ∧
      i64Min ≤ aln.target_start ∧ aln.target_start ≤ i64Max ∧
      i64Min ≤ aln.target_end ∧ aln.target_end ≤ i64Max := by
  unfold parse_alignment at h
  dsimp only at h
  cases hqn : md.query_seq_names (field arec 0) with
  | none => simp only [hqn] at h; exact Except.noConfusion h
  | some qn =>
  simp only [hqn] at h
  cases htn : md.target_seq_names (field arec 3) with
  | none => simp only [htn] at h; exact Except.noConfusion h
  | some tn =>
  simp only [htn] at h
  cases hql : md.query_seq_lengths (field arec 0) with
  | none => simp only [hql] at h; exact Except.noConfusion h
  | some ql =>
  simp only [hql] at h
  cases htl : md.target_seq_lengths (field arec 3) with
  | none => simp only [htl] at h; exact Except.noConfusion h
  | some tl =>
  simp only [htl] at h
  cases hqo : md.query_contig_offsets (field arec 0) with
  | none => simp only [hqo] at h; exact Except.noConfusion h
  | some qpair =>
  obtain ⟨qoff, qlen2⟩ := qpair
  simp only [hqo] at h
  cases hto : md.target_contig_offsets (field arec 3) with
  | none => simp only [hto] at h; exact Except.noConfusion h
  | some tpair =>
  obtain ⟨toff, clen⟩ := tpair
  simp only [hto] at h
  rcases Classical.em ((readAttrs (initUnit qn ql tn tl) rest).1.strand = '-' ∨
      (readAttrs (initUnit qn ql tn tl) rest).1.strand = aposChar) with hs | hs
  · rw [if_pos hs] at h
    dsimp only at h
    cases hq1 : add_offset qoff (field arec 1) with
    | error e => simp only [hq1] at h; exact Except.noConfusion h
    | ok qs =>
    simp only [hq1] at h
    cases hq2 : add_offset qoff (field arec 2) with
    | error e => simp only [hq2] at h; exact Except.noConfusion h
    | ok qe =>
    simp only [hq2] at h
    cases ht1 : add_offset toff (clen - field arec 5) with
    | error e => simp only [ht1] at h; exact Except.noConfusion h
    | ok ts =>
    simp only [ht1] at h
    cases ht2 : add_offset toff (clen - field arec 4) with
    | error e => simp only [ht2] at h; exact Except.noConfusion h
    | ok te =>
    simp only [ht2] at h
    simp only [Except.ok.injEq, Prod.mk.injEq] at h
    obtain ⟨ha, hnext⟩ := h
    obtain ⟨hb1, hb2, hb3⟩ := add_offset_ok _ _ _ hq1
    obtain ⟨hc1, hc2, hc3⟩ := add_offset_ok _ _ _ hq2
    obtain ⟨hd1, hd2, hd3⟩ := add_offset_ok _ _ _ ht1
    obtain ⟨he1, he2, he3⟩ := add_offset_ok _ _ _ ht2
    obtain ⟨hname1, hname2⟩ := readAttrs_names (initUnit qn ql tn tl) rest
    simp only [initUnit] at hname1 hname2
    subst ha
    exact ⟨qn, tn, ql, tl, qoff, qlen2, toff, clen, rfl, rfl, rfl, rfl, rfl, rfl,
      hnext.symm, hname1, hname2, rfl, rfl, rfl, rfl, hb3, hc3,
      fun _ => ⟨hd3, he3⟩, fun hcon => absurd hs hcon,
      show i64Min ≤ qs by omega, show qs ≤ i64Max by omega,
      show i64Min ≤ qe by omega, show qe ≤ i64Max by omega,
      show i64Min ≤ ts by omega, show ts ≤ i64Max by omega,
      show i64Min ≤ te by omega, show te ≤ i64Max by omega⟩
  · rw [if_neg hs] at h
    dsimp only at h
    cases hq1 : add_offset qoff (field arec 1) with
    | error e => simp only [hq1] at h; exact Except.noConfusion h
    | ok qs =>
    simp only [hq1] at h
    cases hq2 : add_offset qoff (field arec 2) with
    | error e => simp only [hq2] at h; exact Except.noConfusion h
    | ok qe =>
    simp only [hq2] at h
    cases ht1 : add_offset toff (field arec 4) with
    | error e => simp only [ht1] at h; exact Except.noConfusion h
    | ok ts =>
    simp only [ht1] at h
    cases ht2 : add_offset toff (field arec 5) with
    | error e => simp only [ht2] at h; exact Except.noConfusion h
    | ok te =>
    simp only [ht2] at h
    simp only [Except.ok.injEq, Prod.mk.injEq] at h
    obtain ⟨ha, hnext⟩ := h
    obtain ⟨hb1, hb2, hb3⟩ := add_offset_ok _ _ _ hq1
    obtain ⟨hc1, hc2, hc3⟩ := add_offset_ok _ _ _ hq2
    obtain ⟨hd1, hd2, hd3⟩ := add_offset_ok _ _ _ ht1
    obtain ⟨he1, he2, he3⟩ := add_offset_ok _ _ _ ht2
    obtain ⟨hname1, hname2⟩ := readAttrs_names (initUnit qn ql tn tl) rest
    simp only [initUnit] at hname1 hname2
    subst ha
    exact ⟨qn, tn, ql, tl, qoff, qlen2, toff, clen, rfl, rfl, rfl, rfl, rfl, rfl,
      hnext.symm, hname1, hname2, rfl, rfl, rfl, rfl, hb3, hc3,
      fun hcon => absurd hcon hs, fun _ => ⟨hd3, he3⟩,
      show i64Min ≤ qs by omega, show qs ≤ i64Max by omega,
      show i64Min ≤ qe by omega, show qe ≤ i64Max by omega,
      show i64Min ≤ ts by omega, show ts ≤ i64Max by omega,
      show i64Min ≤ te by omega, show te ≤ i64Max by omega⟩

/-! ## Concrete fixtures for witnesses and counterexamples -/

/-- A small concrete catalog: query sequence 1 (`chrQ`, length 500, contig
offset 1000, contig length 500) and target sequence 2 (`chrT`, length 800,
contig offset 2000, contig length 800). -/
def mdW : FileMetadata where
  query_seq_names := fun i => if i = 1 then some "chrQ" else none
  query_seq_lengths := fun i => if i = 1 then some 500 else none
  query_contig_offsets := fun i => if i = 1 then some (1000, 500) else none
  target_seq_names := fun i => if i = 2 then some "chrT" else none
  target_seq_lengths := fun i => if i = 2 then some 800 else none
  target_contig_offsets := fun i => if i = 2 then some (2000, 800) else none

/-- A primary record: query id 1, query span 10-40, target id 2,
target span 10-40. -/
def arecW : Rec := ⟨'A', [1, 10, 40, 2, 10, 40], none⟩

/-- Attribute records following `arecW`: a reverse marker and a
difference count of 3. -/
def restW : List Rec := [⟨'R', [], none⟩, ⟨'D', [3], none⟩]

/-- The unit `parse_alignment` produces from `arecW`/`restW` under `mdW`:
reverse strand, query 1010-1040, target flipped about contig length 800
then offset: 2000+(800-40)=2760 to 2000+(800-10)=2790. -/
def alnW : AlignmentData :=
  ⟨"chrQ", 500, 1010, 1040, "chrT", 800, 2760, 2790, '-', 3, [], []⟩

/-- Sanity: the fixture parse evaluates as described. -/
theorem parse_W : parse_alignment mdW arecW restW = .ok (alnW, []) := by decide

/-! ## C10 -/

/-- C10: every unit returned by `parse_alignment` has strand exactly `'+'`
or `'-'` (`'+'` at initialization, changed only to `'-'` by an `'R'`
record); consequently the apostrophe arm of the reverse-flip condition is
unreachable (the strand is never the apostrophe character). -/
theorem C10_strand_plus_or_minus (md : FileMetadata) (arec : Rec) (rest : List Rec)
    (aln : AlignmentData) (next : List Rec)
    (h : parse_alignment md arec rest = .ok (aln, next)) :
    (aln.strand = '+' ∨ aln.strand = '-') ∧ aln.strand ≠ aposChar := by
  obtain ⟨qn, tn, ql, tl, qoff, q2, toff, clen, -, -, -, -, -, -, -, -, -, hstrand, -⟩ :=
    parse_alignment_ok_inv md arec rest aln next h
  have hinit : (initUnit qn ql tn tl).strand = '+' := rfl
  rcases readAttrs_strand (initUnit qn ql tn tl) rest with h1 | h1
  · rw [hinit] at h1
    rw [hstrand, h1]
    exact ⟨Or.inl rfl, by decide⟩
  · rw [hstrand, h1]
    exact ⟨Or.inr rfl, by decide⟩

/-- Witness for C10 at the concrete fixture. -/
theorem C10_strand_witness :
    (alnW.strand = '+' ∨ alnW.strand = '-') ∧ alnW.strand ≠ aposChar :=
  C10_strand_plus_or_minus mdW arecW restW alnW [] (by decide)

/-! ## C4 -/

/-- C4: for a unit with reverse strand, the raw target-local coordinates
(fields 4 and 5 of the primary record) are remapped before offsetting as
`new_start = contig_length - raw_end`, `new_end = contig_length - raw_start`
(so `raw_start ≤ raw_end` implies `target_start ≤ target_end` after
offsetting); query coordinates are never flipped regardless of strand; and
for forward-strand units the target coordinates are not flipped. -/
theorem C4_reverse_strand_flip (md : FileMetadata) (arec : Rec) (rest : List Rec)
    (aln : AlignmentData) (next : List Rec) (qoff qlen2 toff clen : Int)
    (h : parse_alignment md arec rest = .ok (aln, next))
    (hq : md.query_contig_offsets (field arec 0) = some (qoff, qlen2))
    (ht : md.target_contig_offsets (field arec 3) = some (toff, clen)) :
    (aln.query_start = qoff + field arec 1 ∧ aln.query_end = qoff + field arec 2) ∧
      (aln.strand = '-' →
        aln.target_start = toff + (clen - field arec 5) ∧
        aln.target_end = toff + (clen - field arec 4) ∧
        (field arec 4 ≤ field arec 5 → aln.target_start ≤ aln.target_end)) ∧
      (aln.strand = '+' →
        aln.target_start = toff + field arec 4 ∧ aln.target_end = toff + field arec 5) := by
  obtain ⟨qn, tn, ql, tl, qoff', q2', toff', clen', -, -, -, -, hqo, hto, -, -, -, -, -, -, -,
      hqs, hqe, hflip, hnoflip, -⟩ :=
    parse_alignment_ok_inv md arec rest aln next h
  rw [hq] at hqo
  rw [ht] at hto
  obtain ⟨rfl, rfl⟩ : qoff = qoff' ∧ qlen2 = q2' := by
    simpa using hqo
  obtain ⟨rfl, rfl⟩ : toff = toff' ∧ clen = clen' := by
    simpa using hto
  refine ⟨⟨hqs, hqe⟩, ?_, ?_⟩
  · intro hm
    obtain ⟨h1, h2⟩ := hflip (Or.inl hm)
    exact ⟨h1, h2, fun hle => by omega⟩
  · intro hp
    refine hnoflip ?_
    rw [hp]
    decide

/-- Witness for C4 at the concrete reverse-strand fixture: the flipped
target span is 2760-2790 and the flip is order-preserving. -/
theorem C4_reverse_strand_flip_witness :
    alnW.target_start = 2000 + (800 - field arecW 5) ∧
      alnW.target_end = 2000 + (800 - field arecW 4) ∧
      (field arecW 4 ≤ field arecW 5 → alnW.target_start ≤ alnW.target_end) :=
  (C4_reverse_strand_flip mdW arecW restW alnW [] 1000 500 2000 800
      (by decide) (by decide) (by decide)).2.1 (by decide)

/-! ## C5 -/

/-- `add_offset` on an overflowing sum reports the coordinate-overflow
error. -/
theorem add_offset_overflow (o p : Int) (h : o + p < i64Min ∨ i64Max < o + p) :
    add_offset o p = .error "Coordinate overflow when applying contig offset" := by
  unfold add_offset
  rw [if_pos h]

/-- `add_offset` on an in-range sum returns the exact sum. -/
theorem add_offset_in_range (o p : Int) (h1 : i64Min ≤ o + p) (h2 : o + p ≤ i64Max) :
    add_offset o p = .ok (o + p) := by
  unfold add_offset
  rw [if_neg (by omega)]

/-- C5: every offset addition is checked.  (i) If the `i64` addition
overflows, `add_offset` reports the coordinate-overflow error (never a
clamped or wrapped value); (ii) if it does not overflow the exact sum is
returned; (iii) every coordinate of a successfully parsed unit is an
in-range (unwrapped, unclamped) sum; (iv) inside `parse_alignment` an
overflowing query-start addition stops processing of the unit with the
reported error. -/
theorem C5_offset_overflow_is_error :
    (∀ o p : Int, (o + p < i64Min ∨ i64Max < o + p) →
        add_offset o p = .error "Coordinate overflow when applying contig offset") ∧
      (∀ o p : Int, i64Min ≤ o + p → o + p ≤ i64Max → add_offset o p = .ok (o + p)) ∧
      (∀ (md : FileMetadata) (arec : Rec) (rest : List Rec) (aln : AlignmentData)
          (next : List Rec), parse_alignment md arec rest = .ok (aln, next) →
        (i64Min ≤ aln.query_start ∧ aln.query_start ≤ i64Max) ∧
          (i64Min ≤ aln.query_end ∧ aln.query_end ≤ i64Max) ∧
          (i64Min ≤ aln.target_start ∧ aln.target_start ≤ i64Max) ∧
          (i64Min ≤ aln.target_end ∧ aln.target_end ≤ i64Max)) ∧
      (∀ (md : FileMetadata) (arec : Rec) (rest : List Rec) (qn tn : String)
          (ql tl qoff qlen2 toff clen : Int),
        md.query_seq_names (field arec 0) = some qn →
        md.target_seq_names (field arec 3) = some tn →
        md.query_seq_lengths (field arec 0) = some ql →
        md.target_seq_lengths (field arec 3) = some tl →
        md.query_contig_offsets (field arec 0) = some (qoff, qlen2) →
        md.target_contig_offsets (field arec 3) = some (toff, clen) →
        (qoff + field arec 1 < i64Min ∨ i64Max < qoff + field arec 1) →
        parse_alignment md arec rest =
          .error "Coordinate overflow when applying contig offset") := by
  refine ⟨add_offset_overflow, add_offset_in_range, ?_, ?_⟩
  · intro md arec rest aln next h
    obtain ⟨qn, tn, ql, tl, qoff, q2, toff, clen, -, -, -, -, -, -, -, -, -, -, -, -, -, -, -,
        -, -, hb⟩ := parse_alignment_ok_inv md arec rest aln next h
    obtain ⟨h1, h2, h3, h4, h5, h6, h7, h8⟩ := hb
    exact ⟨⟨h1, h2⟩, ⟨h3, h4⟩, ⟨h5, h6⟩, ⟨h7, h8⟩⟩
  · intro md arec rest qn tn ql tl qoff qlen2 toff clen hqn htn hql htl hqo hto hov
    unfold parse_alignment
    dsimp only
    simp only [hqn, htn, hql, htl, hqo, hto]
    have he := add_offset_overflow qoff (field arec 1) hov
    simp only [he]

/-- Witness for C5: a maximal-offset addition overflows into the reported
error, an in-range addition yields the exact sum, and a corrupt (maximal)
query offset table entry makes `parse_alignment` stop with the overflow
error. -/
theorem C5_offset_overflow_is_error_witness :
    add_offset i64Max 10 = .error "Coordinate overflow when applying contig offset" ∧
      add_offset 2000 760 = .ok 2760 ∧
      parse_alignment
          ⟨fun i => if i = 1 then some "chrQ" else none,
           fun i => if i = 1 then some 500 else none,
           fun i => if i = 1 then some (i64Max, 500) else none,
           fun i => if i = 2 then some "chrT" else none,
           fun i => if i = 2 then some 800 else none,
           fun i => if i = 2 then some (2000, 800) else none⟩
          arecW restW =
        .error "Coordinate overflow when applying contig offset" :=
  ⟨C5_offset_overflow_is_error.1 i64Max 10 (by decide),
   C5_offset_overflow_is_error.2.1 2000 760 (by decide) (by decide),
   C5_offset_overflow_is_error.2.2.2
     ⟨fun i => if i = 1 then some "chrQ" else none,
      fun i => if i = 1 then some 500 else none,
      fun i => if i = 1 then some (i64Max, 500) else none,
      fun i => if i = 2 then some "chrT" else none,
      fun i => if i = 2 then some 800 else none,
      fun i => if i = 2 then some (2000, 800) else none⟩
     arecW restW "chrQ" "chrT" 500 800 i64Max 500 2000 800
     (by decide) (by decide) (by decide) (by decide) (by decide) (by decide) (by decide)⟩

/-! ## C2 -/

/-- The all-empty catalog (no metadata resolved at all). -/
def mdEmpty : FileMetadata where
  query_seq_names := fun _ => none
  query_seq_lengths := fun _ => none
  query_contig_offsets := fun _ => none
  target_seq_names := fun _ => none
  target_seq_lengths := fun _ => none
  target_contig_offsets := fun _ => none

/-- C2 counterexample: with empty catalogs (the "neither embedded nor
external data found" situation), a primary record whose query id has no
catalog entry makes `parse_alignment` return an error — the unit is NOT
emitted with "unknown" placeholder names, and the error propagates (`?`)
and aborts the run. -/
theorem C2_counterexample_missing_id_aborts :
    parse_alignment mdEmpty ⟨'A', [0, 0, 0, 0, 0, 0], none⟩ [] =
      .error "Query sequence with ID 0 not found in metadata" := by decide

/-- C2 (amended): an alignment unit whose query or target id is missing
from any of the six catalog tables (name, length, or contig-offset, on
either side) is fatal for the run: `parse_alignment` returns an error, and
no placeholder unit is produced. -/
theorem C2_missing_metadata_fatal (md : FileMetadata) (arec : Rec) (rest : List Rec)
    (h : md.query_seq_names (field arec 0) = none ∨
        md.target_seq_names (field arec 3) = none ∨
        md.query_seq_lengths (field arec 0) = none ∨
        md.target_seq_lengths (field arec 3) = none ∨
        md.query_contig_offsets (field arec 0) = none ∨
        md.target_contig_offsets (field arec 3) = none) :
    ∃ e, parse_alignment md arec rest = .error e := by
  unfold parse_alignment
  dsimp only
  cases hqn : md.query_seq_names (field arec 0) with
  | none => exact ⟨_, rfl⟩
  | some qn =>
  cases htn : md.target_seq_names (field arec 3) with
  | none => exact ⟨_, rfl⟩
  | some tn =>
  cases hql : md.query_seq_lengths (field arec 0) with
  | none => exact ⟨_, rfl⟩
  | some ql =>
  cases htl : md.target_seq_lengths (field arec 3) with
  | none => exact ⟨_, rfl⟩
  | some tl =>
  cases hqo : md.query_contig_offsets (field arec 0) with
  | none => exact ⟨_, rfl⟩
  | some qpair =>
  cases hto : md.target_contig_offsets (field arec 3) with
  | none => exact ⟨_, rfl⟩
  | some tpair =>
  rcases h with h | h | h | h | h | h <;> simp_all

/-- Witness for C2 (amended) at the empty catalog. -/
theorem C2_missing_metadata_fatal_witness :
    ∃ e, parse_alignment mdEmpty arecW restW = .error e :=
  C2_missing_metadata_fatal mdEmpty arecW restW (Or.inl (by decide))

/-! ## C7 -/

/-- C7: a newly opened unit starts with strand `'+'`, differences 0, and
empty tracepoint/trace-diff lists; and any record whose tag is neither a
boundary tag nor one of the four attribute tags `'R'`/`'D'`/`'T'`/`'X'` is
silently skipped by the attribute loop, leaving the unit's state (and the
rest of the scan) unchanged. -/
theorem C7_unit_defaults_and_unknown_skip :
    (∀ (qn : String) (ql : Int) (tn : String) (tl : Int),
        (initUnit qn ql tn tl).strand = '+' ∧
          (initUnit qn ql tn tl).differences = 0 ∧
          (initUnit qn ql tn tl).tracepoints = [] ∧
          (initUnit qn ql tn tl).trace_diffs = []) ∧
      (∀ (aln : AlignmentData) (r : Rec) (l : List Rec),
        is_boundary_tag r.tag = false →
        r.tag ≠ 'R' → r.tag ≠ 'D' → r.tag ≠ 'T' → r.tag ≠ 'X' →
        readAttrs aln (r :: l) = readAttrs aln l) := by
  refine ⟨fun qn ql tn tl => ⟨rfl, rfl, rfl, rfl⟩, fun aln r l hb h1 h2 h3 h4 => ?_⟩
  rw [readAttrs]
  simp only [hb, Bool.false_eq_true, if_false]

/-- Witness for C7: the defaults at a concrete unit, and a concrete unknown
record (tag `'Z'`) skipped without effect. -/
theorem C7_unit_defaults_and_unknown_skip_witness :
    ((initUnit "chrQ" 500 "chrT" 800).strand = '+' ∧
        (initUnit "chrQ" 500 "chrT" 800).differences = 0 ∧
        (initUnit "chrQ" 500 "chrT" 800).tracepoints = [] ∧
        (initUnit "chrQ" 500 "chrT" 800).trace_diffs = []) ∧
      readAttrs (initUnit "chrQ" 500 "chrT" 800) [⟨'Z', [9], none⟩] =
        readAttrs (initUnit "chrQ" 500 "chrT" 800) [] :=
  ⟨C7_unit_defaults_and_unknown_skip.1 "chrQ" 500 "chrT" 800,
   C7_unit_defaults_and_unknown_skip.2 (initUnit "chrQ" 500 "chrT" 800) ⟨'Z', [9], none⟩ []
     (by decide) (by decide) (by decide) (by decide) (by decide)⟩

/-! ## C8 -/

/-- C8: the trace spacing is 100 when no `'t'` record occurs before the
first `'A'` record (or the end of the stream, including an explicit `'\0'`
line); otherwise it is the integer field of the first `'t'` record.  The
behaviour is captured through the first record whose tag is `'t'`, `'A'` or
`'\0'`: if none exists, or it is not a `'t'` record, the default 100 is
used; if it is a `'t'` record, its integer field is used. -/
theorem C8_trace_spacing_default (recs : List Rec) :
    (recs.find? (fun r => r.tag == 't' || r.tag == 'A' || r.tag == nulTag) = none →
        get_trace_spacing recs = 100) ∧
      (∀ r : Rec,
        recs.find? (fun r => r.tag == 't' || r.tag == 'A' || r.tag == nulTag) = some r →
        (r.tag = 't' → get_trace_spacing recs = field r 0) ∧
          (r.tag ≠ 't' → get_trace_spacing recs = 100)) := by
  induction recs with
  | nil => simp [get_trace_spacing]
  | cons r rs ih =>
    by_cases h1 : r.tag = 't'
    · have hfind : (r :: rs).find? (fun r => r.tag == 't' || r.tag == 'A' || r.tag == nulTag) =
          some r :=
        List.find?_cons_of_pos _ (by simp [h1])
      refine ⟨fun hf => by rw [hfind] at hf; exact Option.noConfusion hf, fun r' hr' => ?_⟩
      rw [hfind] at hr'
      obtain rfl : r = r' := by simpa using hr'
      refine ⟨fun _ => ?_, fun hcon => absurd h1 hcon⟩
      rw [get_trace_spacing]
      rw [if_pos h1]
    · by_cases h2 : r.tag = 'A' ∨ r.tag = nulTag
      · have hfind : (r :: rs).find? (fun r => r.tag == 't' || r.tag == 'A' || r.tag == nulTag) =
            some r :=
          List.find?_cons_of_pos _ (by rcases h2 with h2 | h2 <;> simp [h2])
        refine ⟨fun hf => by rw [hfind] at hf; exact Option.noConfusion hf, fun r' hr' => ?_⟩
        rw [hfind] at hr'
        obtain rfl : r = r' := by simpa using hr'
        refine ⟨fun hcon => absurd hcon h1, fun _ => ?_⟩
        rw [get_trace_spacing]
        rw [if_neg h1, if_pos h2]
      · have hfind : (r :: rs).find? (fun r => r.tag == 't' || r.tag == 'A' || r.tag == nulTag) =
            rs.find? (fun r => r.tag == 't' || r.tag == 'A' || r.tag == nulTag) :=
          List.find?_cons_of_neg _ (by
            push_neg at h2
            simp [h1, h2.1, h2.2])
        have hspace : get_trace_spacing (r :: rs) = get_trace_spacing rs := by
          rw [get_trace_spacing]
          rw [if_neg h1, if_neg h2]
        rw [hfind, hspace]
        exact ih

/-- Witness for C8: a header stream whose first relevant record is a `'t'`
record with value 50 yields spacing 50; a stream whose first relevant record
is an `'A'` record yields the default 100. -/
theorem C8_trace_spacing_default_witness :
    get_trace_spacing [⟨'x', [7], none⟩, ⟨'t', [50], none⟩, arecW] = 50 ∧
      get_trace_spacing [⟨'x', [7], none⟩, arecW, ⟨'t', [50], none⟩] = 100 :=
  ⟨((C8_trace_spacing_default [⟨'x', [7], none⟩, ⟨'t', [50], none⟩, arecW]).2
      ⟨'t', [50], none⟩ (by decide)).1 (by decide),
   ((C8_trace_spacing_default [⟨'x', [7], none⟩, arecW, ⟨'t', [50], none⟩]).2
      arecW (by decide)).2 (by decide)⟩

/-! ## C6 -/

/-- A successfully parsed unit carries catalog names matching the ids of
its own primary record, and the remaining stream has exactly the primary
records that followed the consumed attribute run. -/
theorem parse_alignment_ok_names (md : FileMetadata) (arec : Rec) (rest : List Rec)
    (aln : AlignmentData) (next : List Rec)
    (h : parse_alignment md arec rest = .ok (aln, next)) :
    md.query_seq_names (field arec 0) = some aln.query_name ∧
      md.target_seq_names (field arec 3) = some aln.target_name ∧
      primary_records next = primary_records rest := by
  obtain ⟨qn, tn, ql, tl, qoff, q2, toff, clen, hqn, htn, -, -, -, -, hnext, hqname, htname, -⟩ :=
    parse_alignment_ok_inv md arec rest aln next h
  refine ⟨by rw [hqname]; exact hqn, by rw [htname]; exact htn, ?_⟩
  rw [hnext]
  exact readAttrs_primary _ _

/-- Unfolding: the scan of an empty stream yields no units. -/
theorem read_all_alignments_nil (md : FileMetadata) :
    read_all_alignments md [] = .ok [] := by
  simp [read_all_alignments]

/-- Unfolding: at a primary record the scan parses one unit and continues
on the remaining stream. -/
theorem read_all_alignments_cons_A (md : FileMetadata) (r : Rec) (rs : List Rec)
    (aln : AlignmentData) (next : List Rec) (units : List AlignmentData)
    (hA : r.tag = 'A')
    (hp : parse_alignment md r rs = .ok (aln, next))
    (hr : read_all_alignments md next = .ok units) :
    read_all_alignments md (r :: rs) = .ok (aln :: units) := by
  simp only [read_all_alignments]
  rw [if_pos hA]
  split
  · rename_i e heq
    rw [hp] at heq
    exact Except.noConfusion heq
  · rename_i a nx heq
    rw [hp] at heq
    obtain ⟨ha, hn⟩ : a = aln ∧ nx = next := by
      have := heq.symm
      simp only [Except.ok.injEq, Prod.mk.injEq] at this
      exact this
    subst ha hn
    simp only [hr]

/-- Unfolding: a non-primary record at the top level of the scan is
skipped. -/
theorem read_all_alignments_cons_skip (md : FileMetadata) (r : Rec) (rs : List Rec)
    (hA : ¬(r.tag = 'A')) :
    read_all_alignments md (r :: rs) = read_all_alignments md rs := by
  simp only [read_all_alignments]
  rw [if_neg hA]

/-- Length-bounded induction for the full scan: a successful scan emits
units related one-to-one, in order, with the primary records of the
stream. -/
theorem read_all_alignments_forall2 (md : FileMetadata) :
    ∀ (n : Nat) (recs : List Rec) (units : List AlignmentData), recs.length ≤ n →
      read_all_alignments md recs = .ok units →
      List.Forall₂ (fun (u : AlignmentData) (a : Rec) =>
          md.query_seq_names (field a 0) = some u.query_name ∧
          md.target_seq_names (field a 3) = some u.target_name)
        units (primary_records recs) := by
  intro n
  induction n with
  | zero =>
    intro recs units hlen h
    obtain rfl : recs = [] := List.eq_nil_of_length_eq_zero (Nat.le_zero.mp hlen)
    rw [read_all_alignments_nil md] at h
    obtain rfl : [] = units := by simpa using h
    simp [primary_records]
  | succ n ih =>
    intro recs units hlen h
    match recs with
    | [] =>
      rw [read_all_alignments_nil md] at h
      obtain rfl : [] = units := by simpa using h
      simp [primary_records]
    | r :: rs =>
      by_cases hA : r.tag = 'A'
      · simp only [read_all_alignments] at h
        rw [if_pos hA] at h
        split at h
        · exact Except.noConfusion h
        · rename_i aln next hp
          split at h
          · exact Except.noConfusion h
          · rename_i units' hu
            obtain rfl : aln :: units' = units := by simpa using h
            obtain ⟨hqn, htn, hprim⟩ := parse_alignment_ok_names md r rs aln next hp
            have hnext_len : next.length ≤ n := by
              have hle := parse_alignment_length_le md r rs aln next hp
              simp only [List.length_cons] at hlen
              omega
            have htail := ih next units' hnext_len hu
            rw [hprim] at htail
            have hcons : primary_records (r :: rs) = r :: primary_records rs := by
              simp [primary_records, hA]
            rw [hcons]
            exact List.Forall₂.cons ⟨hqn, htn⟩ htail
      · rw [read_all_alignments_cons_skip md r rs hA] at h
        have hcons : primary_records (r :: rs) = primary_records rs := by
          simp [primary_records, hA]
        rw [hcons]
        exact ih rs units (by simp only [List.length_cons] at hlen; omega) h

/-- C6: a successful full scan emits exactly one unit per primary (`'A'`)
record, in encounter order: the emitted list is in one-to-one, order-
preserving correspondence with the stream's primary records (each unit's
names come from its own primary record's ids), and in particular the unit
count equals the primary-record count.  Units are closed exactly at the
boundary (next primary record, group marker, or end of stream) because
`parse_alignment` returns only there; nothing partially built is ever in
the emitted list. -/
theorem C6_one_unit_per_primary (md : FileMetadata) (recs : List Rec)
    (units : List AlignmentData)
    (h : read_all_alignments md recs = .ok units) :
    units.length = (primary_records recs).length ∧
      List.Forall₂ (fun (u : AlignmentData) (a : Rec) =>
          md.query_seq_names (field a 0) = some u.query_name ∧
          md.target_seq_names (field a 3) = some u.target_name)
        units (primary_records recs) :=
  have hf := read_all_alignments_forall2 md recs.length recs units le_rfl h
  ⟨hf.length_eq, hf⟩

/-- A primary record for the fixture catalog with forward strand: query id
1 span 0-5, target id 2 span 0-5. -/
def arecA : Rec := ⟨'A', [1, 0, 5, 2, 0, 5], none⟩

/-- The unit parsed from `arecA` under `mdW`. -/
def alnA : AlignmentData :=
  ⟨"chrQ", 500, 1000, 1005, "chrT", 800, 2000, 2005, '+', 0, [], []⟩

/-- Witness for C6 on a stream of two adjacent primary records: both are
emitted, in order. -/
theorem C6_one_unit_per_primary_witness :
    ([alnA, alnA] : List AlignmentData).length = (primary_records [arecA, arecA]).length ∧
      List.Forall₂ (fun (u : AlignmentData) (a : Rec) =>
          mdW.query_seq_names (field a 0) = some u.query_name ∧
          mdW.target_seq_names (field a 3) = some u.target_name)
        [alnA, alnA] (primary_records [arecA, arecA]) :=
  C6_one_unit_per_primary mdW [arecA, arecA] [alnA, alnA]
    (read_all_alignments_cons_A mdW arecA [arecA] alnA [arecA] [alnA] rfl (by decide)
      (read_all_alignments_cons_A mdW arecA [] alnA [] [] rfl (by decide)
        (read_all_alignments_nil mdW)))
